import Mathlib

/-!
Shallow embedding of `src/starkware/starknet/compiler/validation_utils.py`.

The file embeds, in order:
* the AST fragments the validators inspect (`Location`, `Decorator`,
  `IdentifierList`, `CairoType`, `CodeElementFunction`),
* the four shape validators (`verify_no_implicit_arguments`,
  `verify_decorators`, `verify_starknet_lang`, `verify_no_return_values`),
* the account-contract ABI conformance check (`verify_account_contract`)
  over the ABI data model (`AbiEntry`, Python `dict` modelled as an
  association list with overwrite-on-insert),
* the calldata encoder entry point (`encode_calldata_arguments`), with the
  delegation to the external `encode_data` routine reified as a record of
  the arguments it is called with.

Python exceptions become `Except`: `PreprocessorError` carries the message
string and optional source location exactly as raised; the errors of
`verify_account_contract` are an inductive whose constructors carry the
data interpolated into the corresponding Python message; a failing
`assert` (Python `AssertionError`, a non-recoverable precondition
violation distinct from `PreprocessorError`) is a separate error type.
-/

namespace ValidationUtils

/-- Modelled from the spec: a source location usable for attaching position
information to raised errors (`starkware.cairo.lang.compiler.error_handling.Location`,
not under `src/`); only identity matters here. -/
structure Location where
  pos : Nat
deriving DecidableEq

/-- Python `PreprocessorError(message, location)` as raised by the validators. -/
structure PreprocessorError where
  message : String
  location : Option Location
deriving DecidableEq

/-- Modelled from the spec: an identifier AST node with a name and an
optional source location (`ExprIdentifier`, not under `src/`). -/
structure ExprIdentifier where
  name : String
  location : Option Location
deriving DecidableEq

/-- Modelled from the spec: a typed identifier — an identifier together
with its declared type name (`TypedIdentifier`, not under `src/`; the spec
describes arguments as "name + declared type name, each with a source
location"). -/
structure TypedIdentifier where
  identifier : ExprIdentifier
  expr_type : String
deriving DecidableEq

/-- Modelled from the spec: `TypedIdentifier.get_type()` returns the
declared type of the identifier. -/
def TypedIdentifier.get_type (ti : TypedIdentifier) : String :=
  ti.expr_type

/-- Modelled from the spec: an identifier list AST node
(`IdentifierList`, not under `src/`): the identifiers plus the location of
the whole list. -/
structure IdentifierList where
  identifiers : List TypedIdentifier
  location : Option Location
deriving DecidableEq

/-- Modelled from the spec: a decorator attached to a function —
`{name, source_location}`. -/
structure Decorator where
  name : String
  location : Option Location
deriving DecidableEq

/-- Modelled from the spec: a resolved type descriptor supporting at least
felt, pointer and tuple (`cairo_types`, not under `src/`); the validators
only discriminate `TypeTuple` and read `members` and `location`. -/
inductive CairoType where
  | felt (location : Option Location)
  | pointer (pointee : CairoType) (location : Option Location)
  | tuple (members : List CairoType) (location : Option Location)

/-- The `location` attribute shared by all type AST nodes. -/
def CairoType.location : CairoType → Option Location
  | .felt loc => loc
  | .pointer _ loc => loc
  | .tuple _ loc => loc

/-- Modelled from the spec: the function-declaration AST node
(`CodeElementFunction`, not under `src/`), restricted to the fields the
validators read. -/
structure CodeElementFunction where
  decorators : List Decorator
  implicit_arguments : Option IdentifierList
  returns : Option CairoType

/-- Embeds `verify_no_implicit_arguments`: fails iff the implicit-argument list is
present and non-empty, at the location of that list. -/
def verify_no_implicit_arguments (elm : CodeElementFunction)
    (name_in_error_message : String) : Except PreprocessorError Unit :=
  match elm.implicit_arguments with
  | some ia =>
    if ia.identifiers.length ≠ 0 then
      .error { message := name_in_error_message ++ " must have no implicit arguments.",
               location := ia.location }
    else
      .ok ()
  | none => .ok ()

/-- The `for decorator in elm.decorators` loop of `verify_decorators`,
raising at the first decorator whose name is not allowed. -/
def verify_decorators_loop (decorators : List Decorator)
    (allowed_decorators : List String) (name_in_error_message : String) :
    Except PreprocessorError Unit :=
  match decorators with
  | [] => .ok ()
  | decorator :: rest =>
    if decorator.name ∉ allowed_decorators then
      .error { message := "Unexpected decorator for " ++ name_in_error_message ++ ".",
               location := decorator.location }
    else
      verify_decorators_loop rest allowed_decorators name_in_error_message

/-- Embeds `verify_decorators`: every decorator of `elm` must have its name in
`allowed_decorators`. -/
def verify_decorators (elm : CodeElementFunction) (allowed_decorators : List String)
    (name_in_error_message : String) : Except PreprocessorError Unit :=
  verify_decorators_loop elm.decorators allowed_decorators name_in_error_message

/-- Modelled from the spec: the fixed required dialect tag
(`constants.STARKNET_LANG_DIRECTIVE`, not under `src/`); the docstring of
`verify_starknet_lang` names the `%lang starknet` directive. -/
def STARKNET_LANG_DIRECTIVE : String := "starknet"

/-- Embeds `verify_starknet_lang`: fails unless `file_lang` equals
`STARKNET_LANG_DIRECTIVE` (an absent language also fails). -/
def verify_starknet_lang (file_lang : Option String) (location : Option Location)
    (name_in_error_message : String) : Except PreprocessorError Unit :=
  if file_lang ≠ some STARKNET_LANG_DIRECTIVE then
    .error { message := name_in_error_message ++
               " can only be used in source files that contain the \"%lang starknet\" directive.",
             location := location }
  else
    .ok ()

/-- Embeds `verify_no_return_values`: succeeds iff `returns` is absent or an empty
tuple type; otherwise fails at the location of the return-type node. -/
def verify_no_return_values (elm : CodeElementFunction)
    (name_in_error_message : String) : Except PreprocessorError Unit :=
  match elm.returns with
  | none => .ok ()
  | some returns =>
    match returns with
    | .tuple members loc =>
      if members.length > 0 then
        .error { message := name_in_error_message ++ " must have no return values.",
                 location := loc }
      else
        .ok ()
    | r =>
      .error { message := name_in_error_message ++ " must have no return values.",
               location := r.location }

/-- Modelled from the spec: one `{name, type}` pair of the `inputs`
list of an ABI entry (a Python dict with exactly those two keys); `ty` stands for
the `"type"` key. Equality is the structural equality of the two dicts. -/
structure AbiInput where
  name : String
  ty : String
deriving DecidableEq

/-- Modelled from the spec: one exported contract entry — a record with
`type` (the entry kind, e.g. `"function"`), `name`, and `inputs` (ordered
list of `{name, type}` pairs); `ty` stands for the `"type"` key. -/
structure AbiEntry where
  ty : String
  name : String
  inputs : List AbiInput
deriving DecidableEq

/-- Modelled from the spec: `EXECUTE_ENTRY_POINT_NAME`
(`starkware.starknet.public.abi`, not under `src/`); the spec fixes the
three reserved names as execute, validate, validate-declare. -/
def EXECUTE_ENTRY_POINT_NAME : String := "execute"

/-- Modelled from the spec: `VALIDATE_ENTRY_POINT_NAME`. -/
def VALIDATE_ENTRY_POINT_NAME : String := "validate"

/-- Modelled from the spec: `VALIDATE_DECLARE_ENTRY_POINT_NAME`. -/
def VALIDATE_DECLARE_ENTRY_POINT_NAME : String := "validate-declare"

/-- Modelled from the spec: `ACCOUNT_ENTRY_POINT_NAMES`, the fixed and
closed set of the three reserved account entry-point names (a Python
`set`, modelled as the list of its elements). -/
def ACCOUNT_ENTRY_POINT_NAMES : List String :=
  [EXECUTE_ENTRY_POINT_NAME, VALIDATE_ENTRY_POINT_NAME, VALIDATE_DECLARE_ENTRY_POINT_NAME]

/-- The errors `verify_account_contract` raises, one constructor per
`raise PreprocessorError(...)` site; each constructor carries the data the
Python code interpolates into the message (the list of found reserved
names, where the message lists them). `key_error` models the Python
`KeyError` a `dict[...]` lookup would raise; it is provably unreachable. -/
inductive AccountAbiError where
  | missing_account_entry_points (found : List String)
  | signature_mismatch
  | invalid_declare_signature
  | unexpected_account_entry_points (found : List String)
  | key_error
deriving DecidableEq

/-- Python `d[k] = v` on a `dict` modelled as an association list:
overwrite the value in place when the key is present, append otherwise. -/
def dict_insert (d : List (String × AbiEntry)) (k : String) (v : AbiEntry) :
    List (String × AbiEntry) :=
  if k ∈ d.map Prod.fst then
    d.map (fun p => if p.1 = k then (k, v) else p)
  else
    d ++ [(k, v)]

/-- Python `d[k]` / `d.get(k)` on a `dict` modelled as an association
list: the value at the first (unique) occurrence of the key. -/
def dict_lookup (d : List (String × AbiEntry)) (n : String) : Option AbiEntry :=
  match d with
  | [] => none
  | (k, v) :: rest => if n = k then some v else dict_lookup rest n

/-- The condition of the collection loop of `verify_account_contract`:
`entry_point["type"] == "function" and entry_point["name"] in
ACCOUNT_ENTRY_POINT_NAMES`. -/
def is_reserved_function (entry_point : AbiEntry) : Prop :=
  entry_point.ty = "function" ∧ entry_point.name ∈ ACCOUNT_ENTRY_POINT_NAMES

instance (entry_point : AbiEntry) : Decidable (is_reserved_function entry_point) :=
  inferInstanceAs (Decidable (_ ∧ _))

/-- One iteration of the collection loop of `verify_account_contract`:
record the entry when its `type` is `"function"` and its name is
reserved. -/
def collect_step (d : List (String × AbiEntry)) (entry_point : AbiEntry) :
    List (String × AbiEntry) :=
  if is_reserved_function entry_point then
    dict_insert d entry_point.name entry_point
  else
    d

/-- The collection loop of `verify_account_contract`: walk the ABI and
record, per reserved name, the entries of type `"function"` bearing it
(later entries overwrite earlier ones, as in a Python dict). -/
def collect_account_entry_points (contract_abi : List AbiEntry) :
    List (String × AbiEntry) :=
  contract_abi.foldl collect_step []

/-- The local `account_entry_point_names` of `verify_account_contract`:
the keys of the collected map (distinct, in first-insertion order, as in a
Python dict). -/
def account_entry_point_names_of (contract_abi : List AbiEntry) : List String :=
  (collect_account_entry_points contract_abi).map Prod.fst

/-- Python set equality of two name collections (each modelled as the list
of its elements): same membership, regardless of order or multiplicity. -/
def set_eq_bool (a b : List String) : Bool :=
  decide (∀ x ∈ a, x ∈ b) && decide (∀ x ∈ b, x ∈ a)

/-- Embeds `verify_account_contract`: for `is_account_contract = true`, require
exactly the three reserved entry points, `execute.inputs = validate.inputs`
and `validate-declare.inputs = [{name: "class_hash", type: "felt"}]`; for
`is_account_contract = false`, require that no reserved entry point is
present. -/
def verify_account_contract (contract_abi : List AbiEntry)
    (is_account_contract : Bool) : Except AccountAbiError Unit :=
  if is_account_contract then
    if !(set_eq_bool (account_entry_point_names_of contract_abi)
        ACCOUNT_ENTRY_POINT_NAMES) then
      .error (.missing_account_entry_points (account_entry_point_names_of contract_abi))
    else
      match dict_lookup (collect_account_entry_points contract_abi) VALIDATE_ENTRY_POINT_NAME,
            dict_lookup (collect_account_entry_points contract_abi) EXECUTE_ENTRY_POINT_NAME,
            dict_lookup (collect_account_entry_points contract_abi) VALIDATE_DECLARE_ENTRY_POINT_NAME with
      | some validate_entry_point, some execute_entry_point,
        some validate_declare_entry_point =>
        if execute_entry_point.inputs ≠ validate_entry_point.inputs then
          .error .signature_mismatch
        else if validate_declare_entry_point.inputs ≠
            [{ name := "class_hash", ty := "felt" }] then
          .error .invalid_declare_signature
        else
          .ok ()
      | _, _, _ => .error .key_error
  else
    if (account_entry_point_names_of contract_abi).length > 0 then
      .error (.unexpected_account_entry_points (account_entry_point_names_of contract_abi))
    else
      .ok ()

/-- Embeds `ArgumentInfo` (from `data_encoder`, not under `src/`): one calldata
argument — `{name, cairo_type, location}` with a required, non-optional
location, as the data model of the spec states. -/
structure ArgumentInfo where
  name : String
  cairo_type : CairoType
  location : Location

/-- Embeds `EncodingType` (from `data_encoder`, not under `src/`): the encoding
direction; only `CALLDATA` is in scope here. -/
inductive EncodingType where
  | CALLDATA
  | RETURN
deriving DecidableEq

/-- Modelled from the spec: the visitor capability consumed by the
encoder — `resolve_type` plus the identifier lookup table
(`IdentifierAwareVisitor`, not under `src/`; the type `ι` of the table is
irrelevant here and kept abstract). -/
structure IdentifierAwareVisitor (ι : Type) where
  resolve_type : String → CairoType
  identifiers : ι

/-- Modelled from the spec: the external `encode_data` routine (not under
`src/`) is reified as the record of arguments it is invoked with, so that
the delegation — which arguments, which encoding type, which flags — is
the observable result of `encode_calldata_arguments`. -/
structure EncodeDataCall (ι : Type) where
  arguments : List ArgumentInfo
  encoding_type : EncodingType
  has_range_check_builtin : Bool
  identifiers : ι

/-- A failed Python `assert` (`AssertionError`): a precondition violation
that aborts, distinct from the user-facing `PreprocessorError`. -/
inductive EncoderAbort where
  | assertion_error
deriving DecidableEq

/-- Embeds `non_optional_location`: assert the location is present. -/
def non_optional_location (location : Option Location) :
    Except EncoderAbort Location :=
  match location with
  | some loc => .ok loc
  | none => .error .assertion_error

/-- The list comprehension of `encode_calldata_arguments`: build one
`ArgumentInfo` per typed identifier, in order, asserting each location. -/
def build_argument_infos {ι : Type} (visitor : IdentifierAwareVisitor ι) :
    List TypedIdentifier → Except EncoderAbort (List ArgumentInfo)
  | [] => .ok []
  | typed_identifier :: rest =>
    match non_optional_location typed_identifier.identifier.location with
    | .error e => .error e
    | .ok loc =>
      match build_argument_infos visitor rest with
      | .error e => .error e
      | .ok infos =>
        .ok ({ name := typed_identifier.identifier.name,
               cairo_type := visitor.resolve_type typed_identifier.get_type,
               location := loc } :: infos)

/-- Embeds `encode_calldata_arguments`: build the argument infos and delegate to
`encode_data` with `encoding_type = CALLDATA` and
`has_range_check_builtin = True`. -/
def encode_calldata_arguments {ι : Type} (arguments : IdentifierList)
    (visitor : IdentifierAwareVisitor ι) :
    Except EncoderAbort (EncodeDataCall ι) :=
  match build_argument_infos visitor arguments.identifiers with
  | .error e => .error e
  | .ok argument_infos =>
    .ok { arguments := argument_infos,
          encoding_type := .CALLDATA,
          has_range_check_builtin := true,
          identifiers := visitor.identifiers }

/-- The last element of `l` satisfying `p`, if any — the entry a Python
dict retains for a key after repeated overwriting assignments. -/
def find_last (p : AbiEntry → Prop) [DecidablePred p] :
    List AbiEntry → Option AbiEntry
  | [] => none
  | e :: rest =>
    match find_last p rest with
    | some x => some x
    | none => if p e then some e else none

/-- The names of the ABI entries of type `"function"` bearing a reserved
account entry-point name — the description the claims give of the found set,
phrased directly over the ABI. -/
def reserved_function_names (contract_abi : List AbiEntry) : List String :=
  (contract_abi.filter (fun e => decide (is_reserved_function e))).map AbiEntry.name

/-- A conformant account-contract ABI: exactly the three reserved entry
points, `execute` and `validate` with identical inputs, and
`validate-declare` taking `class_hash: felt`. -/
def sample_account_abi : List AbiEntry :=
  [{ ty := "function", name := "execute", inputs := [{ name := "a", ty := "felt" }] },
   { ty := "function", name := "validate", inputs := [{ name := "a", ty := "felt" }] },
   { ty := "function", name := "validate-declare",
     inputs := [{ name := "class_hash", ty := "felt" }] },
   { ty := "event", name := "log", inputs := [] }]

/-- An ABI whose `execute` and `validate` inputs hold the same pairs in
different orders. -/
def sample_permuted_abi : List AbiEntry :=
  [{ ty := "function", name := "execute",
     inputs := [{ name := "a", ty := "felt" }, { name := "b", ty := "felt" }] },
   { ty := "function", name := "validate",
     inputs := [{ name := "b", ty := "felt" }, { name := "a", ty := "felt" }] },
   { ty := "function", name := "validate-declare",
     inputs := [{ name := "class_hash", ty := "felt" }] }]

/-- An ABI in which `execute` appears twice; only the second occurrence
matches `validate`. -/
def sample_duplicate_abi : List AbiEntry :=
  [{ ty := "function", name := "execute", inputs := [{ name := "old", ty := "felt" }] },
   { ty := "function", name := "validate", inputs := [{ name := "a", ty := "felt" }] },
   { ty := "function", name := "execute", inputs := [{ name := "a", ty := "felt" }] },
   { ty := "function", name := "validate-declare",
     inputs := [{ name := "class_hash", ty := "felt" }] }]

/-- An ABI of a non-account contract that nevertheless declares one
reserved entry point. -/
def sample_nonaccount_abi : List AbiEntry :=
  [{ ty := "function", name := "validate", inputs := [] }]

/-- A concrete visitor resolving every type name to `felt` over a trivial
identifier table. -/
def sample_visitor : IdentifierAwareVisitor Unit :=
  { resolve_type := fun _ => .felt none, identifiers := () }

/-- An argument list whose identifiers all carry locations. -/
def sample_arguments_good : IdentifierList :=
  { identifiers :=
      [{ identifier := { name := "x", location := some { pos := 1 } }, expr_type := "felt" },
       { identifier := { name := "y", location := some { pos := 2 } }, expr_type := "felt" }],
    location := some { pos := 0 } }

/-- An argument list whose second identifier carries no location. -/
def sample_arguments_bad : IdentifierList :=
  { identifiers :=
      [{ identifier := { name := "x", location := some { pos := 1 } }, expr_type := "felt" },
       { identifier := { name := "y", location := none }, expr_type := "felt" }],
    location := some { pos := 0 } }

theorem set_eq_bool_iff (a b : List String) :
    set_eq_bool a b = true ↔ ∀ x, (x ∈ a ↔ x ∈ b) := by
  simp only [set_eq_bool, Bool.and_eq_true, decide_eq_true_eq]
  constructor
  · rintro ⟨h1, h2⟩ x
    exact ⟨fun hx => h1 x hx, fun hx => h2 x hx⟩
  · intro h
    exact ⟨fun x hx => (h x).mp hx, fun x hx => (h x).mpr hx⟩

theorem dict_lookup_isSome_iff (d : List (String × AbiEntry)) (n : String) :
    (dict_lookup d n).isSome = true ↔ n ∈ d.map Prod.fst := by
  induction d with
  | nil => simp [dict_lookup]
  | cons p rest ih =>
    obtain ⟨k, v⟩ := p
    by_cases h : n = k
    · simp [dict_lookup, h]
    · simp [dict_lookup, h, ih]

theorem map_fst_dict_insert (d : List (String × AbiEntry)) (k : String) (v : AbiEntry) :
    (dict_insert d k v).map Prod.fst =
      if k ∈ d.map Prod.fst then d.map Prod.fst else d.map Prod.fst ++ [k] := by
  unfold dict_insert
  split
  · simp only [List.map_map]
    apply List.map_congr_left
    intro p _
    by_cases h : p.1 = k
    · simp [h]
    · simp [h]
  · simp

theorem mem_map_fst_dict_insert (d : List (String × AbiEntry)) (k : String)
    (v : AbiEntry) (n : String) :
    n ∈ (dict_insert d k v).map Prod.fst ↔ n = k ∨ n ∈ d.map Prod.fst := by
  rw [map_fst_dict_insert]
  split
  case isTrue h =>
    constructor
    · exact fun hn => Or.inr hn
    · rintro (rfl | hn)
      · exact h
      · exact hn
  · simp [or_comm]

theorem dict_lookup_nil (n : String) : dict_lookup [] n = none := rfl

theorem dict_lookup_cons (k : String) (v : AbiEntry)
    (rest : List (String × AbiEntry)) (n : String) :
    dict_lookup ((k, v) :: rest) n = if n = k then some v else dict_lookup rest n := rfl

theorem dict_lookup_map_overwrite_self (l : List (String × AbiEntry)) (k : String)
    (v : AbiEntry) (h : k ∈ l.map Prod.fst) :
    dict_lookup (l.map (fun p => if p.1 = k then (k, v) else p)) k = some v := by
  induction l with
  | nil => simp at h
  | cons p rest ih =>
    obtain ⟨k', v'⟩ := p
    by_cases hk : k' = k
    · subst hk
      simp [dict_lookup_cons]
    · have hne : k ≠ k' := fun h' => hk h'.symm
      have hrest : k ∈ rest.map Prod.fst := by
        rcases List.mem_cons.mp h with h' | h'
        · exact absurd h'.symm hk
        · exact h'
      simp only [List.map_cons]
      simp [dict_lookup_cons, hk, hne]
      exact ih hrest

theorem dict_lookup_map_overwrite_ne (l : List (String × AbiEntry)) (k : String)
    (v : AbiEntry) (n : String) (hn : n ≠ k) :
    dict_lookup (l.map (fun p => if p.1 = k then (k, v) else p)) n = dict_lookup l n := by
  induction l with
  | nil => rfl
  | cons p rest ih =>
    obtain ⟨k', v'⟩ := p
    by_cases hk : k' = k
    · subst hk
      simp only [List.map_cons]
      simp [dict_lookup_cons, hn, ih]
    · simp only [List.map_cons]
      by_cases hnk' : n = k'
      · simp [hk, dict_lookup_cons, hnk']
      · simp [hk, dict_lookup_cons, hnk', ih]

theorem dict_lookup_append_single_self (l : List (String × AbiEntry)) (k : String)
    (v : AbiEntry) (h : k ∉ l.map Prod.fst) :
    dict_lookup (l ++ [(k, v)]) k = some v := by
  induction l with
  | nil => simp [dict_lookup_cons, dict_lookup_nil]
  | cons p rest ih =>
    obtain ⟨k', v'⟩ := p
    have hk : k ≠ k' := by
      intro h'
      exact h (by simp [h'])
    simp only [List.cons_append, dict_lookup_cons, if_neg hk]
    exact ih (fun h' => h (by simp only [List.map_cons, List.mem_cons]; exact Or.inr h'))

theorem dict_lookup_append_single_ne (l : List (String × AbiEntry)) (k : String)
    (v : AbiEntry) (n : String) (hn : n ≠ k) :
    dict_lookup (l ++ [(k, v)]) n = dict_lookup l n := by
  induction l with
  | nil => simp [dict_lookup_cons, dict_lookup_nil, hn]
  | cons p rest ih =>
    obtain ⟨k', v'⟩ := p
    by_cases hnk' : n = k'
    · simp [dict_lookup_cons, hnk']
    · simp only [List.cons_append, dict_lookup_cons, if_neg hnk']
      exact ih

theorem dict_lookup_dict_insert_self (d : List (String × AbiEntry)) (k : String)
    (v : AbiEntry) : dict_lookup (dict_insert d k v) k = some v := by
  unfold dict_insert
  split
  case isTrue h => exact dict_lookup_map_overwrite_self d k v h
  case isFalse h => exact dict_lookup_append_single_self d k v h

theorem dict_lookup_dict_insert_ne (d : List (String × AbiEntry)) (k : String)
    (v : AbiEntry) (n : String) (hn : n ≠ k) :
    dict_lookup (dict_insert d k v) n = dict_lookup d n := by
  unfold dict_insert
  split
  · exact dict_lookup_map_overwrite_ne d k v n hn
  · exact dict_lookup_append_single_ne d k v n hn

theorem find_last_nil (p : AbiEntry → Prop) [DecidablePred p] :
    find_last p [] = none := rfl

theorem find_last_cons (p : AbiEntry → Prop) [DecidablePred p] (e : AbiEntry)
    (rest : List AbiEntry) :
    find_last p (e :: rest) =
      match find_last p rest with
      | some x => some x
      | none => if p e then some e else none := rfl

theorem find_last_congr (p q : AbiEntry → Prop) [DecidablePred p] [DecidablePred q]
    (l : List AbiEntry) (h : ∀ e ∈ l, p e ↔ q e) :
    find_last p l = find_last q l := by
  induction l with
  | nil => rfl
  | cons e rest ih =>
    rw [find_last_cons, find_last_cons,
      ih (fun e' he' => h e' (List.mem_cons_of_mem _ he'))]
    rcases find_last q rest with _ | x
    · by_cases hp : p e
      · rw [if_pos hp, if_pos ((h e (List.mem_cons_self _ _)).mp hp)]
      · rw [if_neg hp, if_neg (fun hq => hp ((h e (List.mem_cons_self _ _)).mpr hq))]
    · rfl

theorem dict_lookup_foldl_collect (abi : List AbiEntry) :
    ∀ (d : List (String × AbiEntry)) (n : String),
      dict_lookup (abi.foldl collect_step d) n =
        match find_last (fun e => is_reserved_function e ∧ e.name = n) abi with
        | some x => some x
        | none => dict_lookup d n := by
  induction abi with
  | nil => intro d n; rfl
  | cons e rest ih =>
    intro d n
    rw [List.foldl_cons, ih, find_last_cons]
    rcases hfr : find_last (fun e => is_reserved_function e ∧ e.name = n) rest with _ | x
    · by_cases hp : is_reserved_function e ∧ e.name = n
      · obtain ⟨hres, hname⟩ := hp
        simp only [if_pos (And.intro hres hname)]
        simp only [collect_step, if_pos hres, hname]
        exact dict_lookup_dict_insert_self d n e
      · simp only [if_neg hp]
        by_cases hres : is_reserved_function e
        · have hname : n ≠ e.name := fun h' => hp ⟨hres, h'.symm⟩
          simp only [collect_step, if_pos hres]
          exact dict_lookup_dict_insert_ne d e.name e n hname
        · simp only [collect_step, if_neg hres]
    · rfl

theorem mem_map_fst_foldl_collect (abi : List AbiEntry) :
    ∀ (d : List (String × AbiEntry)) (n : String),
      n ∈ (abi.foldl collect_step d).map Prod.fst ↔
        n ∈ d.map Prod.fst ∨ ∃ e ∈ abi, is_reserved_function e ∧ e.name = n := by
  induction abi with
  | nil => intro d n; simp
  | cons e rest ih =>
    intro d n
    rw [List.foldl_cons, ih]
    by_cases hres : is_reserved_function e
    · simp only [collect_step, if_pos hres, mem_map_fst_dict_insert, List.mem_cons]
      constructor
      · rintro ((rfl | hd) | ⟨e', he', hq⟩)
        · exact Or.inr ⟨e, Or.inl rfl, hres, rfl⟩
        · exact Or.inl hd
        · exact Or.inr ⟨e', Or.inr he', hq⟩
      · rintro (hd | ⟨e', (rfl | he'), hq, rfl⟩)
        · exact Or.inl (Or.inr hd)
        · exact Or.inl (Or.inl rfl)
        · exact Or.inr ⟨e', he', hq, rfl⟩
    · simp only [collect_step, if_neg hres, List.mem_cons]
      constructor
      · rintro (hd | ⟨e', he', hq⟩)
        · exact Or.inl hd
        · exact Or.inr ⟨e', Or.inr he', hq⟩
      · rintro (hd | ⟨e', (rfl | he'), hq, rfl⟩)
        · exact Or.inl hd
        · exact absurd hq hres
        · exact Or.inr ⟨e', he', hq, rfl⟩

theorem dict_lookup_collect (abi : List AbiEntry) (n : String) :
    dict_lookup (collect_account_entry_points abi) n =
      find_last (fun e => is_reserved_function e ∧ e.name = n) abi := by
  unfold collect_account_entry_points
  rw [dict_lookup_foldl_collect]
  rcases find_last (fun e => is_reserved_function e ∧ e.name = n) abi with _ | x <;> rfl

theorem mem_account_entry_point_names (abi : List AbiEntry) (n : String) :
    n ∈ account_entry_point_names_of abi ↔
      ∃ e ∈ abi, is_reserved_function e ∧ e.name = n := by
  unfold account_entry_point_names_of collect_account_entry_points
  rw [mem_map_fst_foldl_collect]
  simp

theorem mem_reserved_function_names (abi : List AbiEntry) (n : String) :
    n ∈ reserved_function_names abi ↔
      ∃ e ∈ abi, is_reserved_function e ∧ e.name = n := by
  unfold reserved_function_names
  simp [List.mem_filter, List.mem_map]
  constructor
  · rintro ⟨e, ⟨he, hq⟩, rfl⟩
    exact ⟨e, he, hq, rfl⟩
  · rintro ⟨e, he, hq, rfl⟩
    exact ⟨e, ⟨he, hq⟩, rfl⟩

theorem set_eq_names_transfer (abi : List AbiEntry) :
    set_eq_bool (account_entry_point_names_of abi) ACCOUNT_ENTRY_POINT_NAMES = true ↔
      set_eq_bool (reserved_function_names abi) ACCOUNT_ENTRY_POINT_NAMES = true := by
  rw [set_eq_bool_iff, set_eq_bool_iff]
  constructor
  · intro h x
    rw [← h x, mem_account_entry_point_names, mem_reserved_function_names]
  · intro h x
    rw [← h x, mem_account_entry_point_names, mem_reserved_function_names]

theorem build_argument_infos_ok {ι : Type} (visitor : IdentifierAwareVisitor ι)
    (l : List TypedIdentifier)
    (h : ∀ ti ∈ l, (ti.identifier.location).isSome = true) :
    build_argument_infos visitor l =
      .ok (l.map (fun ti =>
        { name := ti.identifier.name,
          cairo_type := visitor.resolve_type ti.get_type,
          location := (ti.identifier.location).getD { pos := 0 } })) := by
  induction l with
  | nil => rfl
  | cons ti rest ih =>
    have hti := h ti (List.mem_cons_self _ _)
    rcases hloc : ti.identifier.location with _ | loc
    · rw [hloc] at hti
      simp at hti
    · simp only [build_argument_infos, non_optional_location, hloc]
      rw [ih (fun t ht => h t (List.mem_cons_of_mem _ ht))]
      simp [hloc]

theorem build_argument_infos_error {ι : Type} (visitor : IdentifierAwareVisitor ι)
    (l : List TypedIdentifier) (h : ∃ ti ∈ l, ti.identifier.location = none) :
    build_argument_infos visitor l = .error .assertion_error := by
  induction l with
  | nil => simp at h
  | cons ti rest ih =>
    rcases hloc : ti.identifier.location with _ | loc
    · simp [build_argument_infos, non_optional_location, hloc]
    · obtain ⟨t, ht, htn⟩ := h
      rcases List.mem_cons.mp ht with rfl | htr
      · rw [hloc] at htn
        cases htn
      · simp only [build_argument_infos, non_optional_location, hloc]
        rw [ih ⟨t, htr, htn⟩]

/-- C3: `verify_no_implicit_arguments` succeeds exactly when the
implicit-argument list is absent or empty; when it is present and
non-empty it raises a `PreprocessorError` (the `InvalidSignature` kind)
carrying the source location of the implicit-argument list. -/
theorem verify_no_implicit_arguments_spec (elm : CodeElementFunction) (s : String) :
    (verify_no_implicit_arguments elm s = .ok () ↔
      elm.implicit_arguments = none ∨
        ∃ ia, elm.implicit_arguments = some ia ∧ ia.identifiers = []) ∧
    (∀ ia, elm.implicit_arguments = some ia → ia.identifiers ≠ [] →
      verify_no_implicit_arguments elm s =
        .error { message := s ++ " must have no implicit arguments.",
                 location := ia.location }) := by
  constructor
  · unfold verify_no_implicit_arguments
    rcases hia : elm.implicit_arguments with _ | ia
    · simp
    · simp only []
      by_cases hlen : ia.identifiers.length ≠ 0
      · rw [if_pos hlen]
        simp only [reduceCtorEq, false_iff, not_or]
        refine ⟨by simp, ?_⟩
        rintro ⟨ia', hia', hnil⟩
        rw [Option.some_inj] at hia'
        subst hia'
        exact hlen (by simp [hnil])
      · rw [if_neg hlen]
        push_neg at hlen
        have hnil : ia.identifiers = [] := List.length_eq_zero.mp hlen
        simp [hnil]
  · intro ia hia hne
    have hc : ia.identifiers.length ≠ 0 := fun h => hne (List.length_eq_zero.mp h)
    unfold verify_no_implicit_arguments
    simp only [hia]
    rw [if_pos hc]

/-- C4: `verify_no_return_values` succeeds exactly when the `returns`
annotation is absent or an empty tuple type; any other annotation (a
non-empty tuple or a non-tuple type) is rejected with a
`PreprocessorError` carrying the location of the return-type node. -/
theorem verify_no_return_values_spec (elm : CodeElementFunction) (s : String) :
    (verify_no_return_values elm s = .ok () ↔
      elm.returns = none ∨ ∃ loc, elm.returns = some (.tuple [] loc)) ∧
    (∀ r, elm.returns = some r → (∀ loc, r ≠ .tuple [] loc) →
      verify_no_return_values elm s =
        .error { message := s ++ " must have no return values.",
                 location := r.location }) := by
  constructor
  · unfold verify_no_return_values
    rcases hr : elm.returns with _ | r
    · simp
    · rcases r with loc | ⟨p, loc⟩ | ⟨members, loc⟩
      · simp
      · simp
      · rcases members with _ | ⟨m, ms⟩
        · simp
        · simp
  · intro r hr hnot
    unfold verify_no_return_values
    rw [hr]
    rcases r with loc | ⟨p, loc⟩ | ⟨members, loc⟩
    · rfl
    · rfl
    · rcases members with _ | ⟨m, ms⟩
      · exact absurd rfl (hnot loc)
      · simp [CairoType.location]

theorem verify_decorators_loop_ok_iff (decorators : List Decorator)
    (allowed : List String) (s : String) :
    verify_decorators_loop decorators allowed s = .ok () ↔
      ∀ d ∈ decorators, d.name ∈ allowed := by
  induction decorators with
  | nil => simp [verify_decorators_loop]
  | cons d rest ih =>
    by_cases hd : d.name ∈ allowed
    · have hc : ¬(d.name ∉ allowed) := fun h => h hd
      simp only [verify_decorators_loop, if_neg hc]
      rw [ih]
      constructor
      · intro h d' hd'
        rcases List.mem_cons.mp hd' with rfl | hr
        · exact hd
        · exact h d' hr
      · intro h d' hd'
        exact h d' (List.mem_cons_of_mem _ hd')
    · simp only [verify_decorators_loop, if_pos hd]
      constructor
      · intro h
        cases h
      · intro h
        exact absurd (h d (List.mem_cons_self _ _)) hd

theorem verify_decorators_loop_first_violation (decorators : List Decorator)
    (allowed : List String) (s : String) (d : Decorator)
    (hfind : decorators.find? (fun d => decide (d.name ∉ allowed)) = some d) :
    verify_decorators_loop decorators allowed s =
      .error { message := "Unexpected decorator for " ++ s ++ ".",
               location := d.location } := by
  induction decorators with
  | nil => cases hfind
  | cons d' rest ih =>
    by_cases hd : d'.name ∈ allowed
    · rw [List.find?_cons_of_neg _ (by simp [hd])] at hfind
      have hc : ¬(d'.name ∉ allowed) := fun h => h hd
      simp only [verify_decorators_loop, if_neg hc]
      exact ih hfind
    · rw [List.find?_cons_of_pos _ (by simp [hd])] at hfind
      rw [Option.some_inj] at hfind
      subst hfind
      simp only [verify_decorators_loop, if_pos hd]

/-- C5: `verify_decorators` succeeds exactly when every decorator name of
the declaration is in the allowed list; otherwise it raises an
`UnexpectedDecorator`-kind `PreprocessorError` carrying the location of
the first decorator, in declaration order, whose name is not allowed. -/
theorem verify_decorators_spec (elm : CodeElementFunction)
    (allowed_decorators : List String) (s : String) :
    (verify_decorators elm allowed_decorators s = .ok () ↔
      ∀ d ∈ elm.decorators, d.name ∈ allowed_decorators) ∧
    (∀ d, elm.decorators.find? (fun d => decide (d.name ∉ allowed_decorators)) = some d →
      verify_decorators elm allowed_decorators s =
        .error { message := "Unexpected decorator for " ++ s ++ ".",
                 location := d.location }) := by
  constructor
  · exact verify_decorators_loop_ok_iff elm.decorators allowed_decorators s
  · intro d hd
    exact verify_decorators_loop_first_violation elm.decorators allowed_decorators s d hd

/-- C6: `verify_starknet_lang` succeeds exactly when the declared dialect
equals the fixed `STARKNET_LANG_DIRECTIVE` tag (an absent dialect fails),
and on failure raises a `DialectMismatch`-kind `PreprocessorError` at the
given location. -/
theorem verify_starknet_lang_spec (file_lang : Option String)
    (location : Option Location) (s : String) :
    (verify_starknet_lang file_lang location s = .ok () ↔
      file_lang = some STARKNET_LANG_DIRECTIVE) ∧
    (file_lang ≠ some STARKNET_LANG_DIRECTIVE →
      verify_starknet_lang file_lang location s =
        .error { message := s ++
                   " can only be used in source files that contain the \"%lang starknet\" directive.",
                 location := location }) := by
  constructor
  · by_cases h : file_lang = some STARKNET_LANG_DIRECTIVE
    · simp [verify_starknet_lang, h]
    · simp [verify_starknet_lang, h]
  · intro h
    simp [verify_starknet_lang, h]

theorem lookup_of_set_eq (abi : List AbiEntry) (n : String)
    (hset : set_eq_bool (account_entry_point_names_of abi) ACCOUNT_ENTRY_POINT_NAMES = true)
    (hn : n ∈ ACCOUNT_ENTRY_POINT_NAMES) :
    ∃ e, dict_lookup (collect_account_entry_points abi) n = some e := by
  have hmem : n ∈ account_entry_point_names_of abi :=
    ((set_eq_bool_iff _ _).mp hset n).mpr hn
  have hs := (dict_lookup_isSome_iff (collect_account_entry_points abi) n).mpr hmem
  exact Option.isSome_iff_exists.mp hs

theorem dict_lookup_collect_reserved (abi : List AbiEntry) (n : String)
    (hn : n ∈ ACCOUNT_ENTRY_POINT_NAMES) :
    dict_lookup (collect_account_entry_points abi) n =
      find_last (fun e => e.ty = "function" ∧ e.name = n) abi := by
  rw [dict_lookup_collect]
  apply find_last_congr
  intro e _
  simp only [is_reserved_function]
  constructor
  · rintro ⟨⟨h1, _⟩, h3⟩
    exact ⟨h1, h3⟩
  · rintro ⟨h1, h3⟩
    exact ⟨⟨h1, h3 ▸ hn⟩, h3⟩

theorem verify_account_contract_true_run (abi : List AbiEntry)
    (validate_ep execute_ep validate_declare_ep : AbiEntry)
    (hset : set_eq_bool (account_entry_point_names_of abi) ACCOUNT_ENTRY_POINT_NAMES = true)
    (hV : dict_lookup (collect_account_entry_points abi) VALIDATE_ENTRY_POINT_NAME =
      some validate_ep)
    (hE : dict_lookup (collect_account_entry_points abi) EXECUTE_ENTRY_POINT_NAME =
      some execute_ep)
    (hVD : dict_lookup (collect_account_entry_points abi) VALIDATE_DECLARE_ENTRY_POINT_NAME =
      some validate_declare_ep) :
    verify_account_contract abi true =
      if execute_ep.inputs ≠ validate_ep.inputs then
        .error .signature_mismatch
      else if validate_declare_ep.inputs ≠ [{ name := "class_hash", ty := "felt" }] then
        .error .invalid_declare_signature
      else
        .ok () := by
  unfold verify_account_contract
  rw [hset, hV, hE, hVD]
  rfl

theorem verify_account_contract_true_missing (abi : List AbiEntry)
    (hset : set_eq_bool (account_entry_point_names_of abi) ACCOUNT_ENTRY_POINT_NAMES = false) :
    verify_account_contract abi true =
      .error (.missing_account_entry_points (account_entry_point_names_of abi)) := by
  unfold verify_account_contract
  rw [hset]
  rfl

/-- C1: with `is_account_contract = true`, `verify_account_contract`
succeeds if and only if the set of names of ABI entries of type
`"function"` bearing reserved account entry-point names is exactly the
fixed three-name set, the collected `execute` entry's `inputs` equal the
collected `validate` entry's `inputs`, and the collected
`validate-declare` entry's `inputs` are exactly
`[{name: "class_hash", type: "felt"}]`; mutating any one of these fields
therefore makes it fail. -/
theorem verify_account_contract_account_iff (abi : List AbiEntry) :
    verify_account_contract abi true = .ok () ↔
      (set_eq_bool (reserved_function_names abi) ACCOUNT_ENTRY_POINT_NAMES = true ∧
       ∃ execute_ep validate_ep validate_declare_ep : AbiEntry,
         dict_lookup (collect_account_entry_points abi) EXECUTE_ENTRY_POINT_NAME =
           some execute_ep ∧
         dict_lookup (collect_account_entry_points abi) VALIDATE_ENTRY_POINT_NAME =
           some validate_ep ∧
         dict_lookup (collect_account_entry_points abi) VALIDATE_DECLARE_ENTRY_POINT_NAME =
           some validate_declare_ep ∧
         execute_ep.inputs = validate_ep.inputs ∧
         validate_declare_ep.inputs = [{ name := "class_hash", ty := "felt" }]) := by
  by_cases hset : set_eq_bool (account_entry_point_names_of abi)
      ACCOUNT_ENTRY_POINT_NAMES = true
  · obtain ⟨vE, hE⟩ := lookup_of_set_eq abi EXECUTE_ENTRY_POINT_NAME hset
      (by simp [ACCOUNT_ENTRY_POINT_NAMES])
    obtain ⟨vV, hV⟩ := lookup_of_set_eq abi VALIDATE_ENTRY_POINT_NAME hset
      (by simp [ACCOUNT_ENTRY_POINT_NAMES])
    obtain ⟨vVD, hVD⟩ := lookup_of_set_eq abi VALIDATE_DECLARE_ENTRY_POINT_NAME hset
      (by simp [ACCOUNT_ENTRY_POINT_NAMES])
    rw [verify_account_contract_true_run abi vV vE vVD hset hV hE hVD]
    constructor
    · intro h
      by_cases h1 : vE.inputs = vV.inputs
      · have hc1 : ¬(vE.inputs ≠ vV.inputs) := fun hx => hx h1
        rw [if_neg hc1] at h
        by_cases h2 : vVD.inputs = [{ name := "class_hash", ty := "felt" }]
        · exact ⟨(set_eq_names_transfer abi).mp hset, vE, vV, vVD, hE, hV, hVD, h1, h2⟩
        · rw [if_pos h2] at h
          cases h
      · rw [if_pos h1] at h
        cases h
    · rintro ⟨-, eE, eV, eVD, hE', hV', hVD', h1, h2⟩
      rw [hE, Option.some_inj] at hE'
      rw [hV, Option.some_inj] at hV'
      rw [hVD, Option.some_inj] at hVD'
      subst hE'
      subst hV'
      subst hVD'
      rw [if_neg (fun hx => hx h1), if_neg (fun hx => hx h2)]
  · have hset' : set_eq_bool (account_entry_point_names_of abi)
        ACCOUNT_ENTRY_POINT_NAMES = false := by
      simpa using hset
    rw [verify_account_contract_true_missing abi hset']
    constructor
    · intro h
      cases h
    · rintro ⟨hs, -⟩
      exact absurd ((set_eq_names_transfer abi).mpr hs) hset

/-- C2: with `is_account_contract = false`, `verify_account_contract`
succeeds if and only if no ABI entry of type `"function"` bears a
reserved account entry-point name; if at least one does, it fails with
`unexpected_account_entry_points` carrying the list of reserved names
that were found (the data the Python message interpolates, together with
the suggestion to use the `--account_contract` flag). -/
theorem verify_account_contract_nonaccount_spec (abi : List AbiEntry) :
    (verify_account_contract abi false = .ok () ↔
      ∀ e ∈ abi, ¬(e.ty = "function" ∧ e.name ∈ ACCOUNT_ENTRY_POINT_NAMES)) ∧
    ((∃ e ∈ abi, e.ty = "function" ∧ e.name ∈ ACCOUNT_ENTRY_POINT_NAMES) →
      verify_account_contract abi false =
        .error (.unexpected_account_entry_points (account_entry_point_names_of abi))) := by
  by_cases hlen : (account_entry_point_names_of abi).length > 0
  · have hrun : verify_account_contract abi false =
        .error (.unexpected_account_entry_points (account_entry_point_names_of abi)) := by
      unfold verify_account_contract
      rw [if_pos hlen]
      rfl
    have hex : ∃ e ∈ abi, e.ty = "function" ∧ e.name ∈ ACCOUNT_ENTRY_POINT_NAMES := by
      have hne : account_entry_point_names_of abi ≠ [] := by
        intro h
        rw [h] at hlen
        simp at hlen
      obtain ⟨n, hn⟩ := List.exists_mem_of_ne_nil _ hne
      obtain ⟨e, he, hres, -⟩ := (mem_account_entry_point_names abi n).mp hn
      exact ⟨e, he, hres.1, hres.2⟩
    rw [hrun]
    constructor
    · constructor
      · intro h
        cases h
      · intro h
        obtain ⟨e, he, h1, h2⟩ := hex
        exact absurd ⟨h1, h2⟩ (h e he)
    · intro _
      rfl
  · have hnil : account_entry_point_names_of abi = [] := by
      rcases hemp : account_entry_point_names_of abi with _ | ⟨x, xs⟩
      · rfl
      · rw [hemp] at hlen
        simp at hlen
    have hrun : verify_account_contract abi false = .ok () := by
      unfold verify_account_contract
      rw [if_neg hlen]
      rfl
    have hnone : ∀ e ∈ abi, ¬(e.ty = "function" ∧ e.name ∈ ACCOUNT_ENTRY_POINT_NAMES) := by
      rintro e he ⟨h1, h2⟩
      have : e.name ∈ account_entry_point_names_of abi :=
        (mem_account_entry_point_names abi e.name).mpr ⟨e, he, ⟨h1, h2⟩, rfl⟩
      rw [hnil] at this
      cases this
    rw [hrun]
    constructor
    · exact iff_of_true rfl hnone
    · rintro ⟨e, he, h1, h2⟩
      exact absurd ⟨h1, h2⟩ (hnone e he)

/-- C9: the comparison of the `execute` inputs against the `validate`
inputs is equality of the ordered lists of `{name, type}` pairs: whenever
the two lists differ at all — including two lists with the same pairs in
different orders, or lists of equal length or equal as sets — the check
fails with `signature_mismatch`. -/
theorem verify_account_contract_order_sensitive (abi : List AbiEntry)
    (hset : set_eq_bool (account_entry_point_names_of abi) ACCOUNT_ENTRY_POINT_NAMES = true)
    (execute_ep validate_ep : AbiEntry)
    (hE : dict_lookup (collect_account_entry_points abi) EXECUTE_ENTRY_POINT_NAME =
      some execute_ep)
    (hV : dict_lookup (collect_account_entry_points abi) VALIDATE_ENTRY_POINT_NAME =
      some validate_ep)
    (hne : execute_ep.inputs ≠ validate_ep.inputs) :
    verify_account_contract abi true = .error .signature_mismatch := by
  obtain ⟨vVD, hVD⟩ := lookup_of_set_eq abi VALIDATE_DECLARE_ENTRY_POINT_NAME hset
    (by simp [ACCOUNT_ENTRY_POINT_NAMES])
  rw [verify_account_contract_true_run abi validate_ep execute_ep vVD hset hV hE hVD]
  rw [if_pos hne]

/-- C10: when a reserved name appears on several ABI entries of type
`"function"`, `verify_account_contract` raises no duplicate-specific
error: the collection map retains, per reserved name, only the last such
entry in ABI order, and the signature checks are applied to those last
occurrences. -/
theorem verify_account_contract_duplicates (abi : List AbiEntry) :
    (∀ n ∈ ACCOUNT_ENTRY_POINT_NAMES,
      dict_lookup (collect_account_entry_points abi) n =
        find_last (fun e => e.ty = "function" ∧ e.name = n) abi) ∧
    (set_eq_bool (account_entry_point_names_of abi) ACCOUNT_ENTRY_POINT_NAMES = true →
      ∀ execute_ep validate_ep validate_declare_ep : AbiEntry,
        find_last (fun e => e.ty = "function" ∧ e.name = EXECUTE_ENTRY_POINT_NAME) abi =
          some execute_ep →
        find_last (fun e => e.ty = "function" ∧ e.name = VALIDATE_ENTRY_POINT_NAME) abi =
          some validate_ep →
        find_last (fun e => e.ty = "function" ∧ e.name = VALIDATE_DECLARE_ENTRY_POINT_NAME) abi =
          some validate_declare_ep →
        verify_account_contract abi true =
          if execute_ep.inputs ≠ validate_ep.inputs then
            .error .signature_mismatch
          else if validate_declare_ep.inputs ≠ [{ name := "class_hash", ty := "felt" }] then
            .error .invalid_declare_signature
          else
            .ok ()) := by
  constructor
  · intro n hn
    exact dict_lookup_collect_reserved abi n hn
  · intro hset eE eV eVD hE' hV' hVD'
    rw [← dict_lookup_collect_reserved abi EXECUTE_ENTRY_POINT_NAME
      (by simp [ACCOUNT_ENTRY_POINT_NAMES])] at hE'
    rw [← dict_lookup_collect_reserved abi VALIDATE_ENTRY_POINT_NAME
      (by simp [ACCOUNT_ENTRY_POINT_NAMES])] at hV'
    rw [← dict_lookup_collect_reserved abi VALIDATE_DECLARE_ENTRY_POINT_NAME
      (by simp [ACCOUNT_ENTRY_POINT_NAMES])] at hVD'
    exact verify_account_contract_true_run abi eV eE eVD hset hV' hE' hVD'

/-- C7: when every argument identifier carries a location,
`encode_calldata_arguments` builds one `ArgumentInfo` per typed identifier
in declaration order — with the identifier's name, the type resolved by
the visitor, and the identifier's location — and delegates exactly once to
`encode_data` with `encoding_type = CALLDATA`,
`has_range_check_builtin = true` and the visitor's identifier table, so
arguments are flattened in declaration order with no gaps or
reordering. -/
theorem encode_calldata_arguments_spec {ι : Type} (arguments : IdentifierList)
    (visitor : IdentifierAwareVisitor ι)
    (h : ∀ ti ∈ arguments.identifiers, (ti.identifier.location).isSome = true) :
    encode_calldata_arguments arguments visitor =
      .ok { arguments := arguments.identifiers.map (fun ti =>
              { name := ti.identifier.name,
                cairo_type := visitor.resolve_type ti.get_type,
                location := (ti.identifier.location).getD { pos := 0 } }),
            encoding_type := .CALLDATA,
            has_range_check_builtin := true,
            identifiers := visitor.identifiers } := by
  unfold encode_calldata_arguments
  rw [build_argument_infos_ok visitor arguments.identifiers h]

/-- C8: an argument identifier with an absent source location makes
`encode_calldata_arguments` abort with `assertion_error` — the Python
`AssertionError` of `non_optional_location`, a precondition violation
distinct from the user-facing `PreprocessorError` — and under the
precondition that every argument identifier carries a location this
assertion branch is unreachable (the call succeeds). -/
theorem encode_calldata_arguments_assertion {ι : Type} (arguments : IdentifierList)
    (visitor : IdentifierAwareVisitor ι) :
    ((∃ ti ∈ arguments.identifiers, ti.identifier.location = none) →
      encode_calldata_arguments arguments visitor = .error .assertion_error) ∧
    ((∀ ti ∈ arguments.identifiers, (ti.identifier.location).isSome = true) →
      ∃ call, encode_calldata_arguments arguments visitor = .ok call) := by
  constructor
  · intro h
    unfold encode_calldata_arguments
    rw [build_argument_infos_error visitor arguments.identifiers h]
  · intro h
    refine ⟨{ arguments := arguments.identifiers.map (fun ti =>
                { name := ti.identifier.name,
                  cairo_type := visitor.resolve_type ti.get_type,
                  location := (ti.identifier.location).getD { pos := 0 } }),
              encoding_type := .CALLDATA,
              has_range_check_builtin := true,
              identifiers := visitor.identifiers }, ?_⟩
    unfold encode_calldata_arguments
    rw [build_argument_infos_ok visitor arguments.identifiers h]

theorem verify_account_contract_account_iff_witness :
    verify_account_contract sample_account_abi true = Except.ok () :=
  (verify_account_contract_account_iff sample_account_abi).mpr
    ⟨by decide,
     { ty := "function", name := "execute", inputs := [{ name := "a", ty := "felt" }] },
     { ty := "function", name := "validate", inputs := [{ name := "a", ty := "felt" }] },
     { ty := "function", name := "validate-declare",
       inputs := [{ name := "class_hash", ty := "felt" }] },
     by decide, by decide, by decide, by decide, by decide⟩

theorem verify_account_contract_nonaccount_spec_witness :
    verify_account_contract sample_nonaccount_abi false =
      Except.error (.unexpected_account_entry_points
        (account_entry_point_names_of sample_nonaccount_abi)) :=
  (verify_account_contract_nonaccount_spec sample_nonaccount_abi).2
    ⟨{ ty := "function", name := "validate", inputs := [] }, by decide, by decide, by decide⟩

theorem verify_no_implicit_arguments_spec_witness :
    verify_no_implicit_arguments
      { decorators := [],
        implicit_arguments := some
          { identifiers :=
              [{ identifier := { name := "r", location := some { pos := 4 } },
                 expr_type := "felt" }],
            location := some { pos := 5 } },
        returns := none } "External functions" =
      Except.error { message := "External functions" ++ " must have no implicit arguments.",
                     location := some { pos := 5 } } :=
  (verify_no_implicit_arguments_spec _ _).2
    { identifiers :=
        [{ identifier := { name := "r", location := some { pos := 4 } },
           expr_type := "felt" }],
      location := some { pos := 5 } } rfl (by decide)

theorem verify_no_return_values_spec_witness :
    verify_no_return_values
      { decorators := [], implicit_arguments := none,
        returns := some (.felt (some { pos := 7 })) } "View functions" =
      Except.error { message := "View functions" ++ " must have no return values.",
                     location := some { pos := 7 } } :=
  (verify_no_return_values_spec _ _).2 (.felt (some { pos := 7 })) rfl
    (fun _ h => CairoType.noConfusion h)

theorem verify_decorators_spec_witness :
    verify_decorators
      { decorators := [{ name := "external", location := some { pos := 1 } },
                       { name := "bogus", location := some { pos := 2 } }],
        implicit_arguments := none, returns := none }
      ["external", "view"] "a storage variable" =
      Except.error { message := "Unexpected decorator for " ++ "a storage variable" ++ ".",
                     location := some { pos := 2 } } :=
  (verify_decorators_spec _ _ _).2 { name := "bogus", location := some { pos := 2 } }
    (by decide)

theorem verify_starknet_lang_spec_witness :
    verify_starknet_lang none (some { pos := 3 }) "Events" =
      Except.error
        { message := "Events" ++
            " can only be used in source files that contain the \"%lang starknet\" directive.",
          location := some { pos := 3 } } :=
  (verify_starknet_lang_spec none (some { pos := 3 }) "Events").2 (by decide)

theorem encode_calldata_arguments_spec_witness :
    encode_calldata_arguments sample_arguments_good sample_visitor =
      Except.ok
        { arguments :=
            [{ name := "x", cairo_type := .felt none, location := { pos := 1 } },
             { name := "y", cairo_type := .felt none, location := { pos := 2 } }],
          encoding_type := .CALLDATA,
          has_range_check_builtin := true,
          identifiers := () } :=
  encode_calldata_arguments_spec sample_arguments_good sample_visitor (by decide)

theorem encode_calldata_arguments_assertion_witness :
    encode_calldata_arguments sample_arguments_bad sample_visitor =
        Except.error .assertion_error ∧
      ∃ call, encode_calldata_arguments sample_arguments_good sample_visitor =
        Except.ok call :=
  ⟨(encode_calldata_arguments_assertion sample_arguments_bad sample_visitor).1
      ⟨{ identifier := { name := "y", location := none }, expr_type := "felt" },
       by decide, rfl⟩,
   (encode_calldata_arguments_assertion sample_arguments_good sample_visitor).2 (by decide)⟩

theorem verify_account_contract_order_sensitive_witness :
    verify_account_contract sample_permuted_abi true =
      Except.error .signature_mismatch :=
  verify_account_contract_order_sensitive sample_permuted_abi (by decide)
    { ty := "function", name := "execute",
      inputs := [{ name := "a", ty := "felt" }, { name := "b", ty := "felt" }] }
    { ty := "function", name := "validate",
      inputs := [{ name := "b", ty := "felt" }, { name := "a", ty := "felt" }] }
    (by decide) (by decide) (by decide)

theorem verify_account_contract_duplicates_witness :
    dict_lookup (collect_account_entry_points sample_duplicate_abi) EXECUTE_ENTRY_POINT_NAME =
      find_last (fun e => e.ty = "function" ∧ e.name = EXECUTE_ENTRY_POINT_NAME)
        sample_duplicate_abi ∧
    verify_account_contract sample_duplicate_abi true = Except.ok () :=
  ⟨(verify_account_contract_duplicates sample_duplicate_abi).1 EXECUTE_ENTRY_POINT_NAME
      (by decide),
   Eq.trans
     ((verify_account_contract_duplicates sample_duplicate_abi).2 (by decide)
       { ty := "function", name := "execute", inputs := [{ name := "a", ty := "felt" }] }
       { ty := "function", name := "validate", inputs := [{ name := "a", ty := "felt" }] }
       { ty := "function", name := "validate-declare",
         inputs := [{ name := "class_hash", ty := "felt" }] }
       (by decide) (by decide) (by decide))
     (by rfl)⟩

end ValidationUtils
